import Mathlib

/-!
Verification development for the lightwall installation controller.

The definitions below are a shallow embedding of the Python sources:

* `src/hw/hw_state.py` (the engagement-state store),
* `src/engagement_controller.py` (the presence poller, the transition
  function `_determine_state`, the VAD-gated audio segmenter
  `_audio_callback`, and the conversation handler `_process_transcript`),
* `src/hw/approaching_sequence.py` (the start/stop lifecycle of an
  animation sequence),
* `src/hw/led/led_state.py` (LED brightness clamping and the serial
  SET command).

Python floats (timestamps, seconds, RMS energies) are embedded as `ℚ`;
machine integers as `ℤ`; audio buffers as `List ℚ` of samples; fallible
or effectful steps return explicit effect lists or `Except` values.
The theorems at the end of the file settle the frozen claims about the
program.
-/

namespace HWState

/-- Valid state label IDLE, from `HWState.IDLE` in `hw_state.py`. -/
def IDLE : String := "IDLE"

/-- Valid state label APPROACHING, from `HWState.APPROACHING`. -/
def APPROACHING : String := "APPROACHING"

/-- Valid state label ENGAGED, from `HWState.ENGAGED`. -/
def ENGAGED : String := "ENGAGED"

/-- Valid state label LEAVING, from `HWState.LEAVING`. -/
def LEAVING : String := "LEAVING"

/-- The list of valid state labels checked by `HWState.set_state`. -/
def validStates : List String := [IDLE, APPROACHING, ENGAGED, LEAVING]

/-- Embedding of `HWState.set_state` (hw_state.py lines 216-229): the
stored state is the first argument, the requested new state the second;
an invalid label logs a warning and leaves the stored state unchanged,
and an actual change is only committed when the label differs. -/
def set_state (state new_state : String) : String :=
  if new_state ∈ validStates then
    (if state ≠ new_state then new_state else state)
  else
    state

end HWState

/-- Constant `EXIT_GRACE_SEC` from engagement_controller.py line 39. -/
def EXIT_GRACE_SEC : ℚ := 2

/-- Configuration of the engagement controller: the two distance
thresholds passed to `EngagementController.__init__`. -/
structure EngCfg where
  idle_threshold_mm : ℤ
  engaged_threshold_mm : ℤ
  deriving DecidableEq

/-- Default thresholds from `EngagementController.__init__`
(idle_threshold_mm = 3000, engaged_threshold_mm = 1500). -/
def defaultEngCfg : EngCfg := { idle_threshold_mm := 3000, engaged_threshold_mm := 1500 }

/-- Distance normalization from `_determine_state`: a missing or
non-positive reading is replaced by `idle_threshold_mm + 1`. -/
def normalizeDistance (cfg : EngCfg) : Option ℤ → ℤ
  | none => cfg.idle_threshold_mm + 1
  | some d => if d ≤ 0 then cfg.idle_threshold_mm + 1 else d

/-- Embedding of `EngagementController._determine_state`
(engagement_controller.py lines 316-406).  `last_presence_ts` is the
field `self._last_presence_ts`; `time_since_presence` is `none` when no
presence has ever been recorded (`_last_presence_ts` still 0.0), exactly
as in the source, and the grace check requires it to be present.  The
fallback branch for an unrecognized previous state logs a warning in the
source and returns IDLE. -/
def determine_state (cfg : EngCfg) (distance_mm : Option ℤ)
    (previous_state : String) (now_ts last_presence_ts : ℚ) : String :=
  let d := normalizeDistance cfg distance_mm
  let time_since_presence : Option ℚ :=
    if last_presence_ts > 0 then some (now_ts - last_presence_ts) else none
  let graceOk : Bool :=
    match time_since_presence with
    | some t => decide (t < EXIT_GRACE_SEC)
    | none => false
  if previous_state = HWState.IDLE then
    if d > cfg.idle_threshold_mm then HWState.IDLE
    else if d > cfg.engaged_threshold_mm then HWState.APPROACHING
    else HWState.ENGAGED
  else if previous_state = HWState.APPROACHING then
    if d > cfg.idle_threshold_mm then
      (if graceOk then HWState.APPROACHING else HWState.IDLE)
    else if d ≤ cfg.engaged_threshold_mm then HWState.ENGAGED
    else HWState.APPROACHING
  else if previous_state = HWState.ENGAGED then
    if d > cfg.idle_threshold_mm then
      (if graceOk then HWState.LEAVING else HWState.IDLE)
    else if d > cfg.engaged_threshold_mm then HWState.LEAVING
    else HWState.ENGAGED
  else if previous_state = HWState.LEAVING then
    if d > cfg.idle_threshold_mm then
      (if graceOk then HWState.LEAVING else HWState.IDLE)
    else if d ≤ cfg.engaged_threshold_mm then HWState.ENGAGED
    else HWState.LEAVING
  else
    HWState.IDLE

/-- Transition table of spec section 4.1 read exactly as the claim
states it: the grace predicate `g` holds iff
`now_ts - last_presence_ts < EXIT_GRACE_SEC`, with no requirement that a
presence sample was ever recorded.  This definition follows the words of
the spec and of the claim, to be compared with `determine_state`. -/
def transitionSpecClaim (cfg : EngCfg) (distance_mm : Option ℤ)
    (previous_state : String) (now_ts last_presence_ts : ℚ) : String :=
  let d := normalizeDistance cfg distance_mm
  let g : Bool := decide (now_ts - last_presence_ts < EXIT_GRACE_SEC)
  if previous_state = HWState.IDLE then
    if d ≤ cfg.engaged_threshold_mm then HWState.ENGAGED
    else if d ≤ cfg.idle_threshold_mm then HWState.APPROACHING
    else HWState.IDLE
  else if previous_state = HWState.APPROACHING then
    if d ≤ cfg.engaged_threshold_mm then HWState.ENGAGED
    else if d ≤ cfg.idle_threshold_mm then HWState.APPROACHING
    else if g then HWState.APPROACHING else HWState.IDLE
  else if previous_state = HWState.ENGAGED then
    if d ≤ cfg.engaged_threshold_mm then HWState.ENGAGED
    else if d ≤ cfg.idle_threshold_mm then HWState.LEAVING
    else if g then HWState.LEAVING else HWState.IDLE
  else if previous_state = HWState.LEAVING then
    if d ≤ cfg.engaged_threshold_mm then HWState.ENGAGED
    else if d ≤ cfg.idle_threshold_mm then HWState.LEAVING
    else if g then HWState.LEAVING else HWState.IDLE
  else
    HWState.IDLE

/-- Transition table of spec section 4.1 with the grace predicate as the
code actually computes it: `g` holds iff a genuine presence sample was
recorded (`last_presence_ts > 0`) and `now_ts - last_presence_ts` is
below the grace window.  This is the amended reading of the claim. -/
def transitionSpecAmended (cfg : EngCfg) (distance_mm : Option ℤ)
    (previous_state : String) (now_ts last_presence_ts : ℚ) : String :=
  let d := normalizeDistance cfg distance_mm
  let g : Bool := decide (0 < last_presence_ts) && decide (now_ts - last_presence_ts < EXIT_GRACE_SEC)
  if previous_state = HWState.IDLE then
    if d ≤ cfg.engaged_threshold_mm then HWState.ENGAGED
    else if d ≤ cfg.idle_threshold_mm then HWState.APPROACHING
    else HWState.IDLE
  else if previous_state = HWState.APPROACHING then
    if d ≤ cfg.engaged_threshold_mm then HWState.ENGAGED
    else if d ≤ cfg.idle_threshold_mm then HWState.APPROACHING
    else if g then HWState.APPROACHING else HWState.IDLE
  else if previous_state = HWState.ENGAGED then
    if d ≤ cfg.engaged_threshold_mm then HWState.ENGAGED
    else if d ≤ cfg.idle_threshold_mm then HWState.LEAVING
    else if g then HWState.LEAVING else HWState.IDLE
  else if previous_state = HWState.LEAVING then
    if d ≤ cfg.engaged_threshold_mm then HWState.ENGAGED
    else if d ≤ cfg.idle_threshold_mm then HWState.LEAVING
    else if g then HWState.LEAVING else HWState.IDLE
  else
    HWState.IDLE

/-- Mutable state owned by the presence poller `_loop`: the field
`_last_presence_ts` of the controller and the state stored in HWState. -/
structure PollerSt where
  lastPresenceTs : ℚ
  hwStateVal : String
  deriving DecidableEq

/-- Initial poller state: `_last_presence_ts = 0.0` and HWState starts
at IDLE. -/
def pollerInit : PollerSt := { lastPresenceTs := 0, hwStateVal := HWState.IDLE }

/-- Observable side effects of one tick of `_loop`: committing a new
state to HWState and invoking `_apply_led_behavior_for`. -/
inductive PollEffect
  | commitState (s : String)
  | applyBehavior (s prev : String)
  deriving DecidableEq

/-- Presence-clock update at the top of a tick (engagement_controller.py
lines 296-298): any valid reading within idle_threshold_mm refreshes
`_last_presence_ts` to the current time. -/
def updatePresenceTs (cfg : EngCfg) (ts : ℚ) (distance_mm : Option ℤ) (now_ts : ℚ) : ℚ :=
  match distance_mm with
  | some d => if 0 < d ∧ d ≤ cfg.idle_threshold_mm then now_ts else ts
  | none => ts

/-- One normal tick of `EngagementController._loop` (lines 293-307):
read the distance, refresh the presence clock, compute the next state,
and commit plus apply behavior only when the state actually changed. -/
def pollTick (cfg : EngCfg) (st : PollerSt) (distance_mm : Option ℤ) (now_ts : ℚ) :
    PollerSt × List PollEffect :=
  let ts := updatePresenceTs cfg st.lastPresenceTs distance_mm now_ts
  let prev_state := st.hwStateVal
  let new_state := determine_state cfg distance_mm prev_state now_ts ts
  if new_state ≠ prev_state then
    ({ lastPresenceTs := ts, hwStateVal := HWState.set_state prev_state new_state },
     [PollEffect.commitState new_state, PollEffect.applyBehavior new_state prev_state])
  else
    ({ lastPresenceTs := ts, hwStateVal := st.hwStateVal }, [])

/-- Input to one iteration of the poller loop: either a radar reading
with the current timestamp, or an exception raised somewhere inside the
tick body (reading the radar, computing or committing the transition, or
applying behavior). -/
inductive TickEvent
  | reading (distance_mm : Option ℤ) (now_ts : ℚ)
  | fault (msg : String)

/-- One tick of the loop body as a fallible computation: a fault event
raises, a reading event runs `pollTick`. -/
def pollTickE (cfg : EngCfg) (st : PollerSt) :
    TickEvent → Except String (PollerSt × List PollEffect)
  | TickEvent.reading d now => Except.ok (pollTick cfg st d now)
  | TickEvent.fault m => Except.error m

/-- Embedding of `EngagementController._loop` (lines 284-310) over a
finite schedule of tick events.  In the source the try/except wraps the
whole while loop: the first exception raised inside a tick is caught and
logged outside the loop and the function returns, so the remaining ticks
are never processed.  The second component counts fully processed
ticks. -/
def loopCode (cfg : EngCfg) (st : PollerSt) : List TickEvent → PollerSt × ℕ
  | [] => (st, 0)
  | ev :: rest =>
    match pollTickE cfg st ev with
    | Except.ok (st1, _) =>
      let r := loopCode cfg st1 rest
      (r.1, r.2 + 1)
    | Except.error _ => (st, 0)

/-- Modelled from the spec: sections 4.2 and 7 require that any
exception inside a tick is caught and logged and that the loop continues
with the next tick (the catch-all wraps the body of the loop, not the
loop itself).  This loop is the comparison point for the behavior of
`loopCode`. -/
def loopPerSpec (cfg : EngCfg) (st : PollerSt) : List TickEvent → PollerSt × ℕ
  | [] => (st, 0)
  | ev :: rest =>
    let st1 :=
      match pollTickE cfg st ev with
      | Except.ok (s, _) => s
      | Except.error _ => st
    let r := loopPerSpec cfg st1 rest
    (r.1, r.2 + 1)

/-- State owned by an `ApproachingSequence` instance: the `_running`
flag, the `_stop_event`, the worker `_thread` handle (abstracted to a
numeric token), the LED path and the cached controller addresses. -/
structure ApproachingSeq where
  running : Bool
  stopEventSet : Bool
  thread : Option ℕ
  path : List String
  addresses : List String
  deriving DecidableEq

/-- Observable effects of sequence start/stop: LED writes, spawning and
joining the worker thread, and log lines. -/
inductive SeqEffect
  | ledOff (addr : String)
  | spawnThread (t : ℕ)
  | joinThread (t : ℕ)
  | logWarn (msg : String)
  | logInfo (msg : String)
  deriving DecidableEq

/-- Embedding of `ApproachingSequence.start` (approaching_sequence.py
lines 97-118): a no-op when already running; otherwise (with a nonempty
path) it turns the LEDs off, clears the stop event, spawns the worker
thread and sets the running flag. -/
def seqStart (s : ApproachingSeq) (newThread : ℕ) : ApproachingSeq × List SeqEffect :=
  if s.running then (s, [])
  else if s.path = [] then (s, [SeqEffect.logWarn ("cannot start because path is empty")])
  else
    ({ s with stopEventSet := false, thread := some newThread, running := true },
     s.addresses.map SeqEffect.ledOff ++
       [SeqEffect.spawnThread newThread, SeqEffect.logInfo ("ApproachingSequence started")])

/-- Embedding of `ApproachingSequence.stop` (lines 120-129): a no-op
when not running; otherwise it sets the stop event, joins the worker
thread when present and clears the running flag. -/
def seqStop (s : ApproachingSeq) : ApproachingSeq × List SeqEffect :=
  if s.running = false then (s, [])
  else
    ({ s with stopEventSet := true, running := false },
     (match s.thread with
      | some t => [SeqEffect.joinThread t]
      | none => []) ++ [SeqEffect.logInfo ("ApproachingSequence stopped")])

/-- Mutable fields of an `LEDState` instance (led_state.py) that
`set_brightness` touches.  The float timestamps `start_at` and `end_at`
are carried as rationals; the detached timer that later flips `status`
from fading to on/off is outside this embedding. -/
structure LEDStateRec where
  address : String
  index : ℤ
  status : String
  brightness : ℤ
  prev_brightness : ℤ
  duration_ms : ℤ
  start_at : Option ℚ
  end_at : Option ℚ
  deriving DecidableEq

/-- The serial line built by `LEDState._send`:
`SET index value duration` followed by CRLF, where value and duration
are re-clamped from the stored fields. -/
def mkSetCmd (index value duration : ℤ) : String :=
  "SET " ++ toString index ++ " " ++ toString value ++ " " ++ toString duration ++ "\r\n"

/-- Embedding of `LEDState._send` (lines 62-78): the command is built
from the clamped stored brightness and duration. -/
def ledSend (s : LEDStateRec) : String :=
  mkSetCmd s.index (max 0 (min 255 s.brightness)) (max 0 s.duration_ms)

/-- Embedding of `LEDState.set_brightness` (lines 32-60): clamp the
requested brightness into [0, 255] and the duration into the
non-negative integers, store them, update status and timestamps, and
send one SET command.  Returns the new state and the serial line. -/
def set_brightness (s : LEDStateRec) (brightness duration_ms : ℤ) (now_ts : ℚ) :
    LEDStateRec × String :=
  let s1 := { s with
    prev_brightness := s.brightness,
    brightness := max 0 (min 255 brightness),
    duration_ms := max 0 duration_ms }
  if s1.duration_ms = 0 then
    let s2 := { s1 with
      start_at := some now_ts,
      end_at := some now_ts,
      status := if s1.brightness > 0 then "on" else "off" }
    (s2, ledSend s2)
  else
    let s2 := { s1 with
      start_at := some now_ts,
      end_at := some (now_ts + s1.duration_ms / 1000),
      status := "fading" }
    (s2, ledSend s2)

/-- Constant `ADAPTIVE_RMS_ALPHA` (engagement_controller.py line 30). -/
def ADAPTIVE_RMS_ALPHA : ℚ := 5/100

/-- Constant `ADAPTIVE_GATE_MULTIPLIER` (line 31). -/
def ADAPTIVE_GATE_MULTIPLIER : ℚ := 3

/-- Constant `ADAPTIVE_MIN_GATE` (line 32). -/
def ADAPTIVE_MIN_GATE : ℚ := 1/1000

/-- Constant `END_SILENCE_CONFIRM_SEC` (line 35). -/
def END_SILENCE_CONFIRM_SEC : ℚ := 1

/-- Constant `MIN_UTTERANCE_SEC` (line 42). -/
def MIN_UTTERANCE_SEC : ℚ := 60/100

/-- Constants imported by the controller from `util.audio_constants`, a
module that is not part of the tree: the static gate floor RMS_GATE and
the sample rate.  They are carried as parameters. -/
structure SegConfig where
  rmsGate : ℚ
  sampleRate : ℚ
  deriving DecidableEq

/-- One audio chunk delivered to `_audio_callback`.  The RMS value is
carried as a field: the float sqrt/mean DSP that computes it from the
samples is an external numeric detail.  `vadSpeech` records whether
`get_speech_timestamps` would return a nonempty list for this chunk (the
Silero model is an external black box), and `ttsActive` the result of
the `_tts_is_active` process check. -/
structure Frame where
  now_ts : ℚ
  rms : ℚ
  vadSpeech : Bool
  audio : List ℚ
  ttsActive : Bool
  deriving DecidableEq

/-- Streaming segmenter state of the controller: `_in_speech`,
`_current_utt`, `_rms_baseline`, `_quiet_until_ts` and
`_pending_end_ts`. -/
structure SegState where
  inSpeech : Bool
  currentUtt : List ℚ
  rmsBaseline : Option ℚ
  quietUntilTs : ℚ
  pendingEndTs : Option ℚ
  deriving DecidableEq

/-- Embedding of `EngagementController._update_rms_baseline`
(lines 162-169).  The guard for a non-finite float RMS is vacuous over
the rationals. -/
def update_rms_baseline (baseline : Option ℚ) (rms : ℚ) : Option ℚ :=
  match baseline with
  | none => some rms
  | some b => some ((1 - ADAPTIVE_RMS_ALPHA) * b + ADAPTIVE_RMS_ALPHA * rms)

/-- Embedding of `EngagementController._current_rms_gate`
(lines 171-175). -/
def current_rms_gate (cfg : SegConfig) (baseline : Option ℚ) : ℚ :=
  let base_gate := if cfg.rmsGate > 0 then cfg.rmsGate else 0
  let dynamic := (baseline.getD 0) * ADAPTIVE_GATE_MULTIPLIER
  max ADAPTIVE_MIN_GATE (max base_gate dynamic)

/-- A frame is forced to silence before the VAD stage when the post-TTS
quiet window is active or its energy is below the effective gate
(lines 758-764 of the callback). -/
def frameSilenced (cfg : SegConfig) (st : SegState) (f : Frame) : Bool :=
  decide (f.now_ts < st.quietUntilTs) || decide (f.rms < current_rms_gate cfg st.rmsBaseline)

/-- Speech is detected on a frame exactly when the frame is not dropped
for active TTS, passes the energy/quiet gate and the VAD model reports
speech (`speech_detected` in the callback). -/
def speechDetected (cfg : SegConfig) (st : SegState) (f : Frame) : Bool :=
  !f.ttsActive && !frameSilenced cfg st f && f.vadSpeech

/-- Outcome of a debounced end-of-speech finalization: the utterance is
handed to transcription, discarded as too short, or was empty. -/
inductive SegEvent
  | transcribed (utt : List ℚ)
  | ignoredShort (utt : List ℚ)
  | noAudio
  deriving DecidableEq

/-- Classification applied to the accumulated utterance at finalization
(lines 804-814): empty buffers log a warning, buffers shorter than
MIN_UTTERANCE_SEC are ignored, the rest go to `transcribe`. -/
def finalEventFor (cfg : SegConfig) (utt : List ℚ) : SegEvent :=
  if utt = [] then SegEvent.noAudio
  else if (utt.length : ℚ) / cfg.sampleRate < MIN_UTTERANCE_SEC then SegEvent.ignoredShort utt
  else SegEvent.transcribed utt

/-- Embedding of `EngagementController._audio_callback`
(lines 734-815): drop the chunk while TTS is active; otherwise classify
it through the quiet window and the adaptive gate (updating the EMA
baseline on the silent branches only), then run the debounced
speech-state transition. -/
def audio_callback (cfg : SegConfig) (st : SegState) (f : Frame) : SegState × Option SegEvent :=
  if f.ttsActive then (st, none)
  else
    let silenced := frameSilenced cfg st f
    let baseline1 := if silenced then update_rms_baseline st.rmsBaseline f.rms else st.rmsBaseline
    let speech_detected := if silenced then false else f.vadSpeech
    if speech_detected then
      ({ inSpeech := true,
         currentUtt := (if st.inSpeech then st.currentUtt else []) ++ f.audio,
         rmsBaseline := baseline1,
         quietUntilTs := st.quietUntilTs,
         pendingEndTs := none }, none)
    else if st.inSpeech then
      match st.pendingEndTs with
      | none =>
        ({ st with rmsBaseline := baseline1, pendingEndTs := some f.now_ts }, none)
      | some p =>
        if f.now_ts - p ≥ END_SILENCE_CONFIRM_SEC then
          ({ st with inSpeech := false, pendingEndTs := none, currentUtt := ([] : List ℚ), rmsBaseline := baseline1 },
           some (finalEventFor cfg st.currentUtt))
        else
          ({ st with rmsBaseline := baseline1 }, none)
    else
      ({ st with rmsBaseline := baseline1 }, none)

/-- Finite run of the audio callback over a list of delivered frames,
collecting the finalization events in order. -/
def audioRun (cfg : SegConfig) (st : SegState) : List Frame → SegState × List SegEvent
  | [] => (st, [])
  | f :: fs =>
    let r := audio_callback cfg st f
    let rest := audioRun cfg r.1 fs
    (rest.1, r.2.toList ++ rest.2)

/-- A frame carrying no energy: its RMS 0 is below every possible
effective gate (ADAPTIVE_MIN_GATE is a positive floor), so it is always
classified as silence. -/
def silentFrame (t : ℚ) : Frame :=
  { now_ts := t, rms := 0, vadSpeech := false, audio := [], ttsActive := false }

/-- Silence-only frame stream: k frames arriving at u, u + delta,
u + 2 delta, and so on. -/
def silentFrames (u delta : ℚ) : ℕ → List Frame
  | 0 => []
  | Nat.succ k => silentFrame u :: silentFrames (u + delta) delta k

/-- One chat message, as stored in `_chat_messages`. -/
structure ChatMessage where
  role : String
  content : String
  deriving DecidableEq

/-- Conversation-side state touched by `_process_transcript`:
`_chat_messages`, `_speech_rate`, `_last_assistant_reply` and
`_quiet_until_ts`. -/
structure ConvState where
  chatMessages : List ChatMessage
  speechRate : ℤ
  lastAssistantReply : Option String
  quietUntilTs : ℚ
  deriving DecidableEq

/-- Observable effects of `_process_transcript`: log lines, the blocking
LLM query, and the synchronous speak call. -/
inductive ConvEffect
  | logInfo (msg : String)
  | logWarn (msg : String)
  | logError (msg : String)
  | queryLLM (messages : List ChatMessage)
  | speak (text : String) (rate : ℤ)
  deriving DecidableEq

/-- Shape of a value returned by `query_ollama`: a bare string, or an
object whose `content` attribute may be present, with its `str`
rendering as fallback. -/
inductive LLMReply
  | plain (s : String)
  | structured (content : Option String) (strRepr : String)

/-- Outcome of the guarded `query_ollama` call: an exception, or a
returned optional reply. -/
inductive LLMResult
  | raised (msg : String)
  | returned (response : Option LLMReply)

/-- ASCII whitespace recognized by the Python `str.strip` calls in the
transcript path. -/
def isPySpace (c : Char) : Bool :=
  c = ' ' || c = '\t' || c = '\n' || c = '\r' || c = '\x0B' || c = '\x0C'

/-- Embedding of Python `str.strip()`: drop whitespace from both
ends. -/
def pyStrip (s : String) : String :=
  String.mk (((s.data.dropWhile (fun c => isPySpace c)).reverse.dropWhile
    (fun c => isPySpace c)).reverse)

/-- Embedding of Python `str.lower()` on the ASCII range used by the
placeholder markers. -/
def pyLower (s : String) : String :=
  String.mk (s.data.map Char.toLower)

/-- Match `pat` against the front of the second list, returning the
remainder on success. -/
def dropExact : List Char → List Char → Option (List Char)
  | [], l => some l
  | _ :: _, [] => none
  | p :: ps, c :: cs => if p = c then dropExact ps cs else none

/-- Remove every occurrence of `pat` from the character list, scanning
left to right.  The fuel argument (instantiated with the input length)
only serves structural termination. -/
def removeAllAux (pat : List Char) : ℕ → List Char → List Char
  | _, [] => []
  | 0, l => l
  | Nat.succ n, c :: cs =>
    match dropExact pat (c :: cs) with
    | some rest => removeAllAux pat n rest
    | none => c :: removeAllAux pat n cs

/-- Remove every occurrence of a literal token from a string; used for
the fixed tag alternatives of the sanitizing regexes in
`_process_transcript`. -/
def removeToken (pat s : String) : String :=
  String.mk (removeAllAux pat.data s.data.length s.data)

/-- Scan for the closing `|>` of an angle-bar token, failing on a bare
`>` first (the regex body may not contain `>`). -/
def findBarClose : List Char → Option (List Char)
  | [] => none
  | '|' :: '>' :: rest => some rest
  | '>' :: _ => none
  | _ :: rest => findBarClose rest

/-- Remove every `<|...|>` token (the second sanitizing regex).  The
fuel argument only serves structural termination. -/
def stripBarTokensAux : ℕ → List Char → List Char
  | _, [] => []
  | 0, l => l
  | Nat.succ n, '<' :: '|' :: rest =>
    (match findBarClose rest with
     | some rest1 => stripBarTokensAux n rest1
     | none => '<' :: stripBarTokensAux n ('|' :: rest))
  | Nat.succ n, c :: cs => c :: stripBarTokensAux n cs

/-- Reply sanitation before speaking (lines 714-719): strip the
start/end-of-turn pseudo-tags, angle-bar tokens such as a literal
endoftext marker, NUL characters, and surrounding whitespace.  The
single-pass regex alternation of the source is modelled as sequential
literal-token removal. -/
def stripReplyTags (reply : String) : String :=
  let r1 := removeToken "</start_of_turn>" reply
  let r2 := removeToken "<start_of_turn>" r1
  let r3 := removeToken "</end_of_turn>" r2
  let r4 := removeToken "<end_of_turn>" r3
  let r5 := String.mk (stripBarTokensAux r4.data.length r4.data)
  let r6 := String.mk (r5.data.filter (fun c => c ≠ '\x00'))
  pyStrip r6

/-- The placeholder transcripts ignored by `_process_transcript`
(line 637). -/
def placeholderMarkers : List String := ["*music*", "(empty)", "[empty]"]

/-- Reply-text extraction from the LLM response shape (lines 686-692):
a bare string is stripped; otherwise the `content` attribute is used
when present, with the `str` rendering as fallback. -/
def parseReplyText : LLMReply → String
  | LLMReply.plain s => pyStrip s
  | LLMReply.structured c strRepr => pyStrip (c.getD strRepr)

/-- Embedding of `EngagementController._process_transcript`
(lines 622-732).  The transcript may be absent (transcription returned
None); the scripted LLM outcome stands for the external blocking call;
`now_ts` is the clock value when TTS playback has finished, from which
the post-reply quiet window is computed. -/
def process_transcript (st : ConvState) (text : Option String) (llm : LLMResult)
    (now_ts : ℚ) : ConvState × List ConvEffect :=
  match text with
  | none => (st, [ConvEffect.logWarn ("empty transcript, ignoring")])
  | some t =>
    if t = "" then (st, [ConvEffect.logWarn ("empty transcript, ignoring")])
    else
      let clean_text := pyStrip t
      if clean_text = "" then
        (st, [ConvEffect.logWarn ("transcript empty after stripping, ignoring")])
      else
        let marker := pyLower clean_text
        if marker ∈ placeholderMarkers then
          (st, [ConvEffect.logInfo ("finalized user transcript"),
                ConvEffect.logWarn ("ignored placeholder transcript")])
        else
          let st1 : ConvState := { st with
            chatMessages := st.chatMessages ++ [{ role := "user", content := clean_text }] }
          let preEffects := [ConvEffect.logInfo ("finalized user transcript"),
                             ConvEffect.logInfo ("querying Ollama"),
                             ConvEffect.queryLLM st1.chatMessages]
          match llm with
          | LLMResult.raised _ =>
            (st1, preEffects ++ [ConvEffect.logError ("error while querying LLM")])
          | LLMResult.returned none =>
            (st1, preEffects ++ [ConvEffect.logWarn ("Ollama response is None")])
          | LLMResult.returned (some r) =>
            let reply_text := parseReplyText r
            if reply_text = "" then
              (st1, preEffects ++ [ConvEffect.logWarn ("empty response text after parsing")])
            else
              let st2 : ConvState := { st1 with
                chatMessages := st1.chatMessages ++
                  [{ role := "assistant", content := reply_text }],
                lastAssistantReply := some reply_text }
              let cleaned_reply := stripReplyTags reply_text
              let st3 : ConvState := { st2 with quietUntilTs := now_ts + 2/10 }
              (st3, preEffects ++
                [ConvEffect.speak cleaned_reply st.speechRate,
                 ConvEffect.logInfo ("entering adaptive quiet window")])

/-- Projection of the speak calls out of an effect list. -/
def speakCalls (effs : List ConvEffect) : List (String × ℤ) :=
  effs.filterMap (fun e =>
    match e with
    | ConvEffect.speak t r => some (t, r)
    | _ => none)

/-- Recognizer for pure log effects. -/
def isLogEffect : ConvEffect → Bool
  | ConvEffect.logInfo _ => true
  | ConvEffect.logWarn _ => true
  | ConvEffect.logError _ => true
  | _ => false

/-- Concrete segmenter configuration used for concrete evaluations: a
zero static gate floor and a 16 kHz sample rate. -/
def segCfgInst : SegConfig := { rmsGate := 0, sampleRate := 16000 }

/-- Concrete segmenter state in active speech: a nonempty accumulated
utterance, an established baseline, no pending end-of-speech timer. -/
def segSpeechInst : SegState :=
  { inSpeech := true, currentUtt := [1/2], rmsBaseline := some 1,
    quietUntilTs := 0, pendingEndTs := none }

/-- Concrete loud speech frame: energy well above the effective gate and
a positive VAD classification. -/
def frameLoudInst : Frame :=
  { now_ts := 10, rms := 4, vadSpeech := true, audio := [1/4], ttsActive := false }

/-- Concrete running approaching-sequence state. -/
def seqRunningInst : ApproachingSeq :=
  { running := true, stopEventSet := false, thread := some 1,
    path := ["B0"], addresses := ["B0"] }

/-- Concrete stopped approaching-sequence state. -/
def seqStoppedInst : ApproachingSeq :=
  { running := false, stopEventSet := true, thread := none,
    path := ["B0"], addresses := ["B0"] }

/-- Concrete conversation state seeded with a system prompt. -/
def convInst : ConvState :=
  { chatMessages := [{ role := "system", content := "You are a glowing wall" }],
    speechRate := 80, lastAssistantReply := none, quietUntilTs := 0 }

/-- Conversation state seeded with exactly the personality system
prompt, as `_reset_chat_history` builds it for a nonempty prompt. -/
def c5InitState (sys : String) (rate : ℤ) (lar : Option String) (q0 : ℚ) : ConvState :=
  { chatMessages := [{ role := "system", content := sys }],
    speechRate := rate, lastAssistantReply := lar, quietUntilTs := q0 }

/-- C1.  The claim reads the grace predicate as
`now - lastPresenceTs < exitGraceSec` for all timestamps.  The code
additionally requires `lastPresenceTs > 0` (no grace before the first
genuine presence sample): with previous = ENGAGED, a missing reading,
`now = 1` and `lastPresenceTs = 0`, the claimed table yields LEAVING
(since 1 - 0 < 2) but `_determine_state` returns IDLE. -/
theorem c1_transition_table_claim_cex :
    determine_state defaultEngCfg none HWState.ENGAGED 1 0 = HWState.IDLE ∧
    transitionSpecClaim defaultEngCfg none HWState.ENGAGED 1 0 = HWState.LEAVING ∧
    determine_state defaultEngCfg none HWState.ENGAGED 1 0 ≠
      transitionSpecClaim defaultEngCfg none HWState.ENGAGED 1 0 := by
  refine ⟨?_, ?_, ?_⟩ <;>
    norm_num [determine_state, transitionSpecClaim, normalizeDistance, EXIT_GRACE_SEC,
      defaultEngCfg, HWState.ENGAGED, HWState.IDLE, HWState.APPROACHING, HWState.LEAVING] <;>
    decide

/-- C1 (amended).  For every previous state among the four valid labels,
every optional distance reading and all timestamps, `_determine_state`
returns exactly the next state given by the table of spec section 4.1,
where a missing or non-positive reading is normalized to
`idleThresholdMm + 1` and the grace predicate g holds iff a presence
sample was ever recorded (`lastPresenceTs > 0`) and
`now - lastPresenceTs < exitGraceSec`; in particular ENGAGED with
d > idleThresholdMm yields LEAVING exactly when g so defined holds. -/
theorem c1_transition_matches_amended_table (cfg : EngCfg)
    (hcfg : cfg.engaged_threshold_mm ≤ cfg.idle_threshold_mm)
    (distance_mm : Option ℤ) (previous_state : String)
    (hprev : previous_state ∈ HWState.validStates)
    (now_ts last_presence_ts : ℚ) :
    determine_state cfg distance_mm previous_state now_ts last_presence_ts =
      transitionSpecAmended cfg distance_mm previous_state now_ts last_presence_ts := by
  simp only [HWState.validStates, List.mem_cons, List.not_mem_nil, or_false] at hprev
  have he : cfg.engaged_threshold_mm ≤ cfg.idle_threshold_mm := hcfg
  rcases hprev with h | h | h | h <;> subst h <;>
    by_cases hl : last_presence_ts > 0 <;>
    · simp only [determine_state, transitionSpecAmended,
        HWState.IDLE, HWState.APPROACHING, HWState.ENGAGED, HWState.LEAVING, hl,
        if_true, if_false, String.reduceEq, reduceIte, decide_eq_true_eq,
        Bool.and_eq_true]
      split_ifs <;> first
        | rfl
        | (exfalso; omega)
        | simp_all

/-- Witness for C1 (amended) at the default thresholds, previous state
ENGAGED, a missing reading, now = 1 and lastPresenceTs = 0. -/
theorem c1_transition_matches_amended_table_inst :
    determine_state defaultEngCfg none HWState.ENGAGED 1 0 =
      transitionSpecAmended defaultEngCfg none HWState.ENGAGED 1 0 :=
  c1_transition_matches_amended_table defaultEngCfg (by decide) none HWState.ENGAGED
    (by decide) 1 0

/-- Helper: one `set_state` call starting from a valid stored state
leaves the stored state in the valid list. -/
theorem set_state_mem_valid (s n : String) (hs : s ∈ HWState.validStates) :
    HWState.set_state s n ∈ HWState.validStates := by
  unfold HWState.set_state
  split_ifs <;> simp_all

/-- Helper: folding any call sequence over a valid stored state stays in
the valid list. -/
theorem foldl_set_state_mem_valid (calls : List String) :
    ∀ s : String, s ∈ HWState.validStates →
      List.foldl HWState.set_state s calls ∈ HWState.validStates := by
  induction calls with
  | nil => intro s hs; simpa using hs
  | cons c cs ih =>
    intro s hs
    exact ih _ (set_state_mem_valid s c hs)

/-- C8.  Starting from IDLE, any sequence of `HWState.set_state` calls
with arbitrary string arguments leaves the stored state among the four
valid labels, and a call with an invalid label leaves the stored state
unchanged. -/
theorem c8_state_always_valid :
    (∀ calls : List String,
      List.foldl HWState.set_state HWState.IDLE calls ∈ HWState.validStates) ∧
    (∀ s n : String, n ∉ HWState.validStates → HWState.set_state s n = s) := by
  constructor
  · intro calls
    exact foldl_set_state_mem_valid calls HWState.IDLE (by simp [HWState.validStates])
  · intro s n hn
    unfold HWState.set_state
    simp [hn]

/-- Witness for C8: an invalid label is rejected and the stored state
keeps its value. -/
theorem c8_state_always_valid_inst :
    HWState.set_state HWState.ENGAGED ("BOGUS") = HWState.ENGAGED :=
  c8_state_always_valid.2 HWState.ENGAGED ("BOGUS") (by decide)

/-- C9.  For every starting LED state and arbitrary integer brightness
and duration arguments, `set_brightness` stores a brightness clamped
into [0, 255] and a non-negative duration, and the serial SET command it
sends is built exactly from those clamped stored values. -/
theorem c9_brightness_clamped (s : LEDStateRec) (b d : ℤ) (now_ts : ℚ) :
    0 ≤ (set_brightness s b d now_ts).1.brightness ∧
    (set_brightness s b d now_ts).1.brightness ≤ 255 ∧
    0 ≤ (set_brightness s b d now_ts).1.duration_ms ∧
    (set_brightness s b d now_ts).1.brightness = max 0 (min 255 b) ∧
    (set_brightness s b d now_ts).1.duration_ms = max 0 d ∧
    (set_brightness s b d now_ts).2 =
      mkSetCmd s.index ((set_brightness s b d now_ts).1.brightness)
        ((set_brightness s b d now_ts).1.duration_ms) := by
  have hb : max 0 (min 255 (max 0 (min 255 b))) = max 0 (min 255 b) := by omega
  have hd : max 0 (max 0 d) = max 0 d := by omega
  simp only [set_brightness, ledSend]
  split_ifs with h <;> dsimp only <;>
    exact ⟨by omega, by omega, by omega, rfl, rfl, by simp [hb, hd]⟩

/-- C6.  A poll tick whose computed next state equals the current state
commits nothing and does not invoke the behavior entry point, and
starting an already-running ApproachingSequence or stopping a
non-running one leaves the sequence state untouched with no effects. -/
theorem c6_no_change_no_effects :
    (∀ (cfg : EngCfg) (st : PollerSt) (distance_mm : Option ℤ) (now_ts : ℚ),
      determine_state cfg distance_mm st.hwStateVal now_ts
          (updatePresenceTs cfg st.lastPresenceTs distance_mm now_ts) = st.hwStateVal →
      (pollTick cfg st distance_mm now_ts).2 = [] ∧
      (pollTick cfg st distance_mm now_ts).1.hwStateVal = st.hwStateVal) ∧
    (∀ (s : ApproachingSeq) (t : ℕ), s.running = true → seqStart s t = (s, [])) ∧
    (∀ s : ApproachingSeq, s.running = false → seqStop s = (s, [])) := by
  refine ⟨?_, ?_, ?_⟩
  · intro cfg st distance_mm now_ts h
    unfold pollTick
    simp [h]
  · intro s t h
    unfold seqStart
    simp [h]
  · intro s h
    unfold seqStop
    simp [h]

/-- Witness for C6: a tick with no reading in the initial IDLE state,
starting a running sequence, and stopping a stopped one. -/
theorem c6_no_change_no_effects_inst :
    (pollTick defaultEngCfg pollerInit none 1).2 = [] ∧
    seqStart seqRunningInst 5 = (seqRunningInst, []) ∧
    seqStop seqStoppedInst = (seqStoppedInst, []) :=
  ⟨(c6_no_change_no_effects.1 defaultEngCfg pollerInit none 1 (by decide)).1,
   c6_no_change_no_effects.2.1 seqRunningInst 5 rfl,
   c6_no_change_no_effects.2.2 seqStoppedInst rfl⟩

/-- C2 (code bug evaluation).  In the source the try/except of `_loop`
wraps the whole while loop, so the first exception raised inside a tick
ends the loop after being logged: on the schedule below, the faulty
first tick terminates the poller and the following valid reading (which
would drive IDLE to ENGAGED) is never processed, while the loop
described by the spec (catch-all inside the loop body) processes both
ticks and reaches ENGAGED. -/
theorem c2_faulty_tick_terminates_loop :
    loopCode defaultEngCfg pollerInit
      [TickEvent.fault ("radar read failed"), TickEvent.reading (some 1200) 1] =
      (pollerInit, 0) ∧
    loopPerSpec defaultEngCfg pollerInit
      [TickEvent.fault ("radar read failed"), TickEvent.reading (some 1200) 1] =
      ({ lastPresenceTs := 1, hwStateVal := HWState.ENGAGED }, 2) := by
  constructor
  · rfl
  · decide

/-- Helper: lowercasing fixes every character an ASCII whitespace
character. -/
theorem toLower_fixes_pyspace (c : Char) (h : isPySpace c = true) :
    Char.toLower c = c := by
  simp only [isPySpace, Bool.or_eq_true, decide_eq_true_eq] at h
  rcases h with ⟨⟨⟨⟨h | h⟩ | h⟩ | h⟩ | h⟩ | h <;> subst h <;> decide

/-- Helper: the placeholder markers contain no whitespace
characters. -/
theorem markers_no_space :
    ∀ m ∈ placeholderMarkers, ∀ c ∈ m.data, isPySpace c = false := by decide

/-- Helper: a string whose lowercasing is a placeholder marker contains
no whitespace characters. -/
theorem no_space_of_pyLower_marker (s : String)
    (h : pyLower s ∈ placeholderMarkers) :
    ∀ c ∈ s.data, isPySpace c = false := by
  intro c hc
  by_contra hns
  have hsp : isPySpace c = true := by
    cases hcs : isPySpace c
    · exact absurd hcs hns
    · rfl
  have hfix : Char.toLower c = c := toLower_fixes_pyspace c hsp
  have hmem : Char.toLower c ∈ (pyLower s).data := by
    simp only [pyLower]
    exact List.mem_map_of_mem Char.toLower hc
  have hno := markers_no_space (pyLower s) h (Char.toLower c) hmem
  rw [hfix] at hno
  rw [hno] at hsp
  exact Bool.false_ne_true hsp

/-- Helper: dropWhile of the whitespace predicate is the identity on a
list with no whitespace. -/
theorem dropWhile_pyspace_eq_self (l : List Char)
    (h : ∀ c ∈ l, isPySpace c = false) :
    l.dropWhile (fun c => isPySpace c) = l := by
  cases l with
  | nil => rfl
  | cons c cs =>
    rw [List.dropWhile_cons]
    simp [h c (by simp)]

/-- Helper: stripping is the identity on a string with no whitespace
characters. -/
theorem pyStrip_eq_self (s : String) (h : ∀ c ∈ s.data, isPySpace c = false) :
    pyStrip s = s := by
  unfold pyStrip
  rw [dropWhile_pyspace_eq_self s.data h]
  rw [dropWhile_pyspace_eq_self s.data.reverse
    (by intro c hc; exact h c (List.mem_reverse.mp hc))]
  rw [List.reverse_reverse]

/-- Helper: stripping a whitespace-only string yields the empty
string. -/
theorem pyStrip_all_space (s : String) (h : s.data.all isPySpace = true) :
    pyStrip s = "" := by
  unfold pyStrip
  have h1 : s.data.dropWhile (fun c => isPySpace c) = [] := by
    rw [List.dropWhile_eq_nil_iff]
    intro x hx
    exact (List.all_eq_true.mp h) x hx
  rw [h1]
  rfl

/-- C7.  A transcript that is absent, empty, whitespace-only, or equal
case-insensitively to one of the placeholder markers is dropped after
logging: the conversation state (in particular the chat history) is
unchanged and the produced effects are log lines only, so the LLM is
never queried and nothing is spoken. -/
theorem c7_placeholder_ignored (st : ConvState) (llm : LLMResult) (now_ts : ℚ)
    (text : Option String)
    (h : text = none ∨ ∃ s, text = some s ∧
      (s.data.all isPySpace = true ∨ pyLower s ∈ placeholderMarkers)) :
    (process_transcript st text llm now_ts).1 = st ∧
    (process_transcript st text llm now_ts).2.all isLogEffect = true := by
  rcases h with h | ⟨s, rfl, hs⟩
  · subst h
    exact ⟨rfl, rfl⟩
  · simp only [process_transcript]
    by_cases h0 : s = ""
    · rw [if_pos h0]
      exact ⟨rfl, rfl⟩
    · rw [if_neg h0]
      by_cases h1 : pyStrip s = ""
      · rw [if_pos h1]
        exact ⟨rfl, rfl⟩
      · rw [if_neg h1]
        rcases hs with hs | hs
        · exact absurd (pyStrip_all_space s hs) h1
        · have hself : pyStrip s = s :=
            pyStrip_eq_self s (no_space_of_pyLower_marker s hs)
          rw [hself, if_pos hs]
          exact ⟨rfl, rfl⟩

/-- Witness for C7: a mixed-case music marker is ignored without
touching the conversation state. -/
theorem c7_placeholder_ignored_inst :
    (process_transcript convInst (some ("*Music*")) (LLMResult.returned none) 0).1 = convInst ∧
    (process_transcript convInst (some ("*Music*")) (LLMResult.returned none) 0).2.all
      isLogEffect = true :=
  c7_placeholder_ignored convInst (LLMResult.returned none) 0 (some ("*Music*"))
    (Or.inr ⟨"*Music*", rfl, Or.inr (by decide)⟩)

/-- C5.  With the chat history seeded with the personality system
prompt, a scripted transcription result hello and a scripted LLM reply
hi there, `_process_transcript` leaves the history as exactly
[system, user hello, assistant hi there] and invokes speak exactly once,
with the tag-stripped reply hi there at the configured speech rate. -/
theorem c5_round_trip (sys : String) (rate : ℤ) (lar : Option String) (q0 now_ts : ℚ) :
    (process_transcript (c5InitState sys rate lar q0) (some ("hello"))
        (LLMResult.returned (some (LLMReply.plain ("hi there")))) now_ts).1.chatMessages =
      [{ role := "system", content := sys },
       { role := "user", content := "hello" },
       { role := "assistant", content := "hi there" }] ∧
    speakCalls (process_transcript (c5InitState sys rate lar q0) (some ("hello"))
        (LLMResult.returned (some (LLMReply.plain ("hi there")))) now_ts).2 =
      [("hi there", rate)] := by
  exact ⟨rfl, rfl⟩

/-- Helper: the EMA baseline after one non-dropped frame is updated
exactly when the frame was forced to silence by the quiet window or the
energy gate, and untouched otherwise (in particular on every frame that
reaches the VAD stage). -/
theorem audio_callback_baseline (cfg : SegConfig) (st : SegState) (f : Frame)
    (h : f.ttsActive = false) :
    (audio_callback cfg st f).1.rmsBaseline =
      (if frameSilenced cfg st f then update_rms_baseline st.rmsBaseline f.rms
       else st.rmsBaseline) := by
  unfold audio_callback
  by_cases hs : frameSilenced cfg st f <;>
    by_cases hin : st.inSpeech <;>
    rcases hp : st.pendingEndTs with _ | p <;>
    cases hv : f.vadSpeech <;>
    simp [h, hs, hin, hp, hv] <;>
    split_ifs <;>
    rfl

/-- Helper: a zero-energy frame is always below the effective gate,
whose floor ADAPTIVE_MIN_GATE is positive. -/
theorem silentFrame_silenced (cfg : SegConfig) (st : SegState) (t : ℚ) :
    frameSilenced cfg st (silentFrame t) = true := by
  unfold frameSilenced silentFrame current_rms_gate
  simp only [Bool.or_eq_true, decide_eq_true_eq]
  right
  calc (0:ℚ) < ADAPTIVE_MIN_GATE := by norm_num [ADAPTIVE_MIN_GATE]
    _ ≤ _ := le_max_left _ _

/-- C4 counterexample.  The claim states the baseline is never mutated
while the in-speech flag is set.  In the code a frame whose RMS falls
below the effective gate updates the EMA baseline even during active
speech: from a speech state with baseline 1, a zero-energy frame moves
the baseline to 19/20. -/
theorem c4_baseline_claim_cex :
    segSpeechInst.inSpeech = true ∧
    (audio_callback segCfgInst segSpeechInst (silentFrame 10)).1.rmsBaseline ≠
      segSpeechInst.rmsBaseline := by
  refine ⟨rfl, ?_⟩
  rw [audio_callback_baseline segCfgInst segSpeechInst (silentFrame 10) rfl,
    if_pos (silentFrame_silenced segCfgInst segSpeechInst 10)]
  simp only [update_rms_baseline, segSpeechInst, silentFrame, ADAPTIVE_RMS_ALPHA]
  intro hcontra
  have := Option.some.injEq _ _ ▸ hcontra
  norm_num at hcontra

/-- C4 (amended).  A frame on which speech is detected never mutates the
EMA baseline; the baseline is updated exactly on the frames classified
as silence by the quiet window or the energy gate before the VAD stage,
regardless of the in-speech flag (so it also adapts on gated frames
inside the end-of-speech debounce window). -/
theorem c4_baseline_update_characterization (cfg : SegConfig) (st : SegState) (f : Frame)
    (h : f.ttsActive = false) :
    (speechDetected cfg st f = true →
      (audio_callback cfg st f).1.rmsBaseline = st.rmsBaseline) ∧
    (audio_callback cfg st f).1.rmsBaseline =
      (if frameSilenced cfg st f then update_rms_baseline st.rmsBaseline f.rms
       else st.rmsBaseline) := by
  have hb := audio_callback_baseline cfg st f h
  refine ⟨?_, hb⟩
  intro hd
  unfold speechDetected at hd
  simp only [h, Bool.not_false, Bool.true_and, Bool.and_eq_true, Bool.not_eq_true'] at hd
  rw [hb, hd.1]
  rfl

/-- Witness for C4 (amended): a loud VAD-positive frame in active speech
leaves the established baseline untouched. -/
theorem c4_baseline_update_characterization_inst :
    (audio_callback segCfgInst segSpeechInst frameLoudInst).1.rmsBaseline =
      segSpeechInst.rmsBaseline :=
  (c4_baseline_update_characterization segCfgInst segSpeechInst frameLoudInst rfl).1
    (by norm_num [speechDetected, frameSilenced, current_rms_gate, segCfgInst,
      segSpeechInst, frameLoudInst, ADAPTIVE_MIN_GATE, ADAPTIVE_GATE_MULTIPLIER])

/-- C10.  Per delivered frame (not dropped for TTS): when speech is
detected the chunk audio is appended at the end of the current utterance
(which restarts empty when speech begins), no finalization happens and
the speech state holds; when no speech is detected the utterance buffer
is either left exactly unchanged (so silent frames, including every
frame of the debounce window, are never appended) or, on the debounce
expiry, handed over exactly as accumulated and reset to empty.  Hence
the buffer handed to transcription is precisely the concatenation, in
arrival order, of the speech-detected frames since the utterance
began. -/
theorem c10_utterance_exact_speech_frames (cfg : SegConfig) (st : SegState) (f : Frame)
    (h : f.ttsActive = false) :
    (speechDetected cfg st f = true →
      (audio_callback cfg st f).2 = none ∧
      (audio_callback cfg st f).1.currentUtt =
        (if st.inSpeech then st.currentUtt else []) ++ f.audio ∧
      (audio_callback cfg st f).1.inSpeech = true) ∧
    (speechDetected cfg st f = false →
      ((audio_callback cfg st f).1.currentUtt = st.currentUtt ∧
        (audio_callback cfg st f).2 = none) ∨
      ((audio_callback cfg st f).1.currentUtt = [] ∧
        (audio_callback cfg st f).2 = some (finalEventFor cfg st.currentUtt))) := by
  constructor
  · intro hd
    unfold speechDetected at hd
    simp only [h, Bool.not_false, Bool.true_and, Bool.and_eq_true, Bool.not_eq_true'] at hd
    unfold audio_callback
    simp [h, hd.1, hd.2]
  · intro hd
    unfold speechDetected at hd
    simp only [h, Bool.not_false, Bool.true_and, Bool.and_eq_true, Bool.not_eq_true',
      Bool.not_eq_true] at hd
    unfold audio_callback
    by_cases hs : frameSilenced cfg st f <;>
      by_cases hin : st.inSpeech <;>
      rcases hp : st.pendingEndTs with _ | p <;>
      cases hv : f.vadSpeech <;>
      simp_all <;>
      split_ifs <;>
      simp

/-- Witness for C10: a loud VAD-positive frame in active speech appends
its audio to the accumulated utterance without finalizing. -/
theorem c10_utterance_exact_speech_frames_inst :
    (audio_callback segCfgInst segSpeechInst frameLoudInst).2 = none ∧
    (audio_callback segCfgInst segSpeechInst frameLoudInst).1.currentUtt =
      (if segSpeechInst.inSpeech then segSpeechInst.currentUtt else []) ++
        frameLoudInst.audio ∧
    (audio_callback segCfgInst segSpeechInst frameLoudInst).1.inSpeech = true :=
  (c10_utterance_exact_speech_frames segCfgInst segSpeechInst frameLoudInst rfl).1
    (by norm_num [speechDetected, frameSilenced, current_rms_gate, segCfgInst,
      segSpeechInst, frameLoudInst, ADAPTIVE_MIN_GATE, ADAPTIVE_GATE_MULTIPLIER])


/-- Helper: the effective gate is always positive, since its floor
ADAPTIVE_MIN_GATE is. -/
theorem current_rms_gate_pos (cfg : SegConfig) (b : Option ℚ) :
    0 < current_rms_gate cfg b := by
  simp only [current_rms_gate]
  calc (0:ℚ) < ADAPTIVE_MIN_GATE := by norm_num [ADAPTIVE_MIN_GATE]
    _ ≤ _ := le_max_left _ _

/-- Helper: a frame with zero RMS is always below the effective gate and
so is classified as silence. -/
theorem frame_rms_zero_silenced (cfg : SegConfig) (st : SegState) (f : Frame)
    (h : f.rms = 0) : frameSilenced cfg st f = true := by
  unfold frameSilenced
  simp only [h, Bool.or_eq_true, decide_eq_true_eq]
  right
  exact current_rms_gate_pos cfg st.rmsBaseline

/-- Helper: a zero-energy frame outside the speech state only adapts
the baseline. -/
theorem silent_step_no_speech (cfg : SegConfig) (st : SegState) (t : ℚ)
    (h : st.inSpeech = false) :
    audio_callback cfg st (silentFrame t) =
      ({ st with rmsBaseline := update_rms_baseline st.rmsBaseline 0 }, none) := by
  simp [audio_callback, silentFrame, frame_rms_zero_silenced, h]

/-- Helper: the first zero-energy frame in the speech state starts the
end-confirmation timer at its own timestamp. -/
theorem silent_step_first (cfg : SegConfig) (st : SegState) (t : ℚ)
    (h1 : st.inSpeech = true) (h2 : st.pendingEndTs = none) :
    audio_callback cfg st (silentFrame t) =
      ({ st with rmsBaseline := update_rms_baseline st.rmsBaseline 0, pendingEndTs := some t }, none) := by
  simp [audio_callback, silentFrame, frame_rms_zero_silenced, h1, h2]

/-- Helper: a zero-energy frame inside the speech state before the
debounce window has elapsed leaves the pending timer running. -/
theorem silent_step_wait (cfg : SegConfig) (st : SegState) (t p : ℚ)
    (h1 : st.inSpeech = true) (h2 : st.pendingEndTs = some p)
    (h3 : ¬ t - p ≥ END_SILENCE_CONFIRM_SEC) :
    audio_callback cfg st (silentFrame t) =
      ({ st with rmsBaseline := update_rms_baseline st.rmsBaseline 0 }, none) := by
  simp [audio_callback, silentFrame, frame_rms_zero_silenced, h1, h2, h3]

/-- Helper: a zero-energy frame arriving at least
END_SILENCE_CONFIRM_SEC after the pending timestamp finalizes the
utterance. -/
theorem silent_step_finalize (cfg : SegConfig) (st : SegState) (t p : ℚ)
    (h1 : st.inSpeech = true) (h2 : st.pendingEndTs = some p)
    (h3 : t - p ≥ END_SILENCE_CONFIRM_SEC) :
    audio_callback cfg st (silentFrame t) =
      ({ st with inSpeech := false, pendingEndTs := none, currentUtt := ([] : List ℚ), rmsBaseline := update_rms_baseline st.rmsBaseline 0 },
       some (finalEventFor cfg st.currentUtt)) := by
  simp [audio_callback, silentFrame, frame_rms_zero_silenced, h1, h2, h3]

/-- Helper: a silence-only stream delivered outside the speech state
never produces a finalization event. -/
theorem silent_run_no_speech (cfg : SegConfig) (k : ℕ) :
    ∀ (st : SegState) (u delta : ℚ), st.inSpeech = false →
      (audioRun cfg st (silentFrames u delta k)).2 = [] := by
  induction k with
  | zero =>
    intro st u delta h
    rfl
  | succ n ih =>
    intro st u delta h
    simp only [silentFrames, audioRun, silent_step_no_speech cfg st u h,
      Option.toList_none, List.nil_append]
    exact ih _ (u + delta) delta h

/-- Helper: with the end-confirmation timer already pending at p, a
silence-only stream of k frames starting at u with spacing delta
produces exactly one finalization when some frame arrives at or after
p + END_SILENCE_CONFIRM_SEC, that is when u + (k-1) delta reaches it,
and none otherwise. -/
theorem silent_run_pending (cfg : SegConfig) (k : ℕ) :
    ∀ (st : SegState) (u delta p : ℚ), st.inSpeech = true →
      st.pendingEndTs = some p → 0 < delta →
      (audioRun cfg st (silentFrames u delta k)).2.length =
        (if 1 ≤ k ∧ p + END_SILENCE_CONFIRM_SEC ≤ u + ((k:ℚ) - 1) * delta
         then 1 else 0) := by
  induction k with
  | zero =>
    intro st u delta p h1 h2 h3
    simp [silentFrames, audioRun]
  | succ n ih =>
    intro st u delta p h1 h2 h3
    by_cases hf : u - p ≥ END_SILENCE_CONFIRM_SEC
    · rw [silentFrames]
      simp only [audioRun, silent_step_finalize cfg st u p h1 h2 hf]
      rw [silent_run_no_speech cfg n { st with inSpeech := false, pendingEndTs := none, currentUtt := ([] : List ℚ), rmsBaseline := update_rms_baseline st.rmsBaseline 0 } (u + delta) delta rfl]
      simp only [Option.toList_some, List.singleton_append, List.length_cons,
        List.length_nil]
      rw [if_pos]
      constructor
      · omega
      · have hnd : 0 ≤ (n:ℚ) * delta := mul_nonneg (Nat.cast_nonneg n) (le_of_lt h3)
        have hcast : ((n+1 : ℕ):ℚ) - 1 = (n:ℚ) := by push_cast; ring
        rw [hcast]
        linarith
    · rw [silentFrames]
      simp only [audioRun, silent_step_wait cfg st u p h1 h2 hf, Option.toList_none,
        List.nil_append]
      rw [ih { st with rmsBaseline := update_rms_baseline st.rmsBaseline 0 } (u + delta) delta p h1 h2 h3]
      rcases Nat.eq_zero_or_pos n with hn | hn
      · subst hn
        rw [if_neg (by omega), if_neg]
        rintro ⟨-, hc⟩
        have hcast : ((0+1 : ℕ):ℚ) - 1 = 0 := by push_cast; ring
        rw [hcast, zero_mul, add_zero] at hc
        have hlt : u - p < END_SILENCE_CONFIRM_SEC := lt_of_not_ge hf
        linarith
      · have harith : (u + delta) + ((n:ℚ) - 1) * delta = u + (((n+1 : ℕ):ℚ) - 1) * delta := by
          push_cast
          ring
        rw [harith]
        have hcond : (1 ≤ n ∧ p + END_SILENCE_CONFIRM_SEC ≤ u + (((n+1 : ℕ):ℚ) - 1) * delta) ↔
            (1 ≤ n + 1 ∧ p + END_SILENCE_CONFIRM_SEC ≤ u + (((n+1 : ℕ):ℚ) - 1) * delta) := by
          constructor
          · rintro ⟨h4, h5⟩
            exact ⟨by omega, h5⟩
          · rintro ⟨h4, h5⟩
            exact ⟨hn, h5⟩
        rw [if_congr hcond rfl rfl]

/-- C3 counterexample.  With frames every 0.5 s the claim places the
finalization on silent frame number ceil(1.0 / 0.5) = 2, but after two
silent frames the code has produced no finalization at all: the first
silent frame only starts the end-confirmation timer, and the second
arrives 0.5 s after it, short of END_SILENCE_CONFIRM_SEC. -/
theorem c3_finalize_count_claim_cex :
    (⌈END_SILENCE_CONFIRM_SEC / ((1:ℚ)/2)⌉ : ℤ) = 2 ∧
    (audioRun segCfgInst segSpeechInst (silentFrames 0 (1/2) 2)).2.length = 0 := by
  constructor
  · norm_num [END_SILENCE_CONFIRM_SEC]
  · have hfr : silentFrames 0 ((1:ℚ)/2) 2 =
        silentFrame 0 :: silentFrames (0 + 1/2) (1/2) 1 := rfl
    rw [hfr]
    simp only [audioRun, silent_step_first segCfgInst segSpeechInst 0 rfl rfl,
      Option.toList_none, List.nil_append]
    rw [silent_step_wait segCfgInst { inSpeech := segSpeechInst.inSpeech, currentUtt := segSpeechInst.currentUtt, rmsBaseline := update_rms_baseline segSpeechInst.rmsBaseline 0, quietUntilTs := segSpeechInst.quietUntilTs, pendingEndTs := some 0 } (0 + 1/2) 0 rfl rfl (by norm_num [END_SILENCE_CONFIRM_SEC])]
    simp

/-- C3 (amended).  From the speech state with no pending timer, under a
silence-only stream with fixed spacing delta, the utterance is finalized
exactly once, on the (ceil(END_SILENCE_CONFIRM_SEC / delta) + 1)-th
silent frame and on no earlier frame: the first silent frame only starts
the end-confirmation timer at its own timestamp, and the finalization
fires on the first frame arriving at least END_SILENCE_CONFIRM_SEC
later. -/
theorem c3_finalize_on_confirming_frame (cfg : SegConfig) (st : SegState)
    (h1 : st.inSpeech = true) (h2 : st.pendingEndTs = none)
    (t0 delta : ℚ) (hd : 0 < delta) (k : ℕ) :
    (audioRun cfg st (silentFrames t0 delta k)).2.length =
      (if (⌈END_SILENCE_CONFIRM_SEC / delta⌉ + 1 : ℤ) ≤ (k:ℤ) then 1 else 0) := by
  have hE : (0:ℚ) < END_SILENCE_CONFIRM_SEC := by norm_num [END_SILENCE_CONFIRM_SEC]
  have hceil1 : (1:ℤ) ≤ ⌈END_SILENCE_CONFIRM_SEC / delta⌉ := by
    have hpos : (0:ℚ) < END_SILENCE_CONFIRM_SEC / delta := div_pos hE hd
    have := Int.ceil_pos.mpr hpos
    omega
  cases k with
  | zero =>
    simp only [silentFrames, audioRun, List.length_nil]
    rw [if_neg (by push_cast; omega)]
  | succ n =>
    rw [silentFrames]
    simp only [audioRun, silent_step_first cfg st t0 h1 h2, Option.toList_none,
      List.nil_append]
    rw [silent_run_pending cfg n { st with rmsBaseline := update_rms_baseline st.rmsBaseline 0, pendingEndTs := some t0 } (t0 + delta) delta t0 h1 rfl hd]
    have harith : (t0 + delta) + ((n:ℚ) - 1) * delta = t0 + (n:ℚ) * delta := by ring
    rw [harith]
    by_cases hc : (⌈END_SILENCE_CONFIRM_SEC / delta⌉ + 1 : ℤ) ≤ ((n+1 : ℕ):ℤ)
    · rw [if_pos hc, if_pos]
      have h5 : (⌈END_SILENCE_CONFIRM_SEC / delta⌉ : ℤ) ≤ (n:ℤ) := by
        push_cast at hc
        omega
      constructor
      · omega
      · have h6 : END_SILENCE_CONFIRM_SEC / delta ≤ (n:ℚ) := by
          calc END_SILENCE_CONFIRM_SEC / delta
              ≤ ((⌈END_SILENCE_CONFIRM_SEC / delta⌉ : ℤ) : ℚ) := Int.le_ceil _
            _ ≤ ((n:ℤ):ℚ) := by exact_mod_cast h5
            _ = (n:ℚ) := by push_cast; rfl
        have h7 : END_SILENCE_CONFIRM_SEC ≤ (n:ℚ) * delta := by
          rw [div_le_iff₀ hd] at h6
          linarith
        linarith
    · rw [if_neg hc, if_neg]
      rintro ⟨h4, h5⟩
      have h6 : END_SILENCE_CONFIRM_SEC ≤ (n:ℚ) * delta := by linarith
      have h7 : END_SILENCE_CONFIRM_SEC / delta ≤ ((n:ℤ):ℚ) := by
        rw [div_le_iff₀ hd]
        push_cast
        linarith
      have h8 : (⌈END_SILENCE_CONFIRM_SEC / delta⌉ : ℤ) ≤ (n:ℤ) := Int.ceil_le.mpr h7
      push_cast at hc
      omega

/-- Witness for C3 (amended): with 0.5 s spacing the finalization
happens on the third silent frame, so a three-frame silence-only stream
yields exactly one finalization. -/
theorem c3_finalize_on_confirming_frame_inst :
    (audioRun segCfgInst segSpeechInst (silentFrames 0 (1/2) 3)).2.length = 1 := by
  have h := c3_finalize_on_confirming_frame segCfgInst segSpeechInst rfl rfl 0 (1/2)
    (by norm_num) 3
  rw [h, if_pos (by norm_num [END_SILENCE_CONFIRM_SEC])]
